import Mathlib

/-!
Verification of the commodity price scraper (`scraper.py`).

The HTML documents consumed by `scrape_commodity_prices` are modelled by a
shallow DOM: a document is a list of tables, a table carries its CSS classes
and an optional `tbody` holding rows, a row is a list of cells, and a cell
carries its flattened descendant elements (in document order, which is the
order BeautifulSoup's `find` searches) together with its own text.  The
outcome of the HTTP fetch plus HTML parse is passed in explicitly as an
`Except` value: the `error` cases stand for the two `except` branches of the
source (a `requests.RequestException` and any other parsing exception).
File output of `save_data` is modelled by an explicit filesystem state and
JSON documents by an inductive value type; clock readings (the ISO timestamp
and the two `strftime` stamps) are parameters.
-/

namespace Scraper

/-- A descendant element of a table cell: its tag, CSS classes, and text. -/
structure Elem where
  tag : String
  classes : List String
  text : String
deriving DecidableEq, Inhabited

/-- A `td` cell: its descendant elements in document order, and its raw text. -/
structure Cell where
  children : List Elem
  text : String
deriving DecidableEq, Inhabited

/-- A table row (`tr`) is its list of `td` cells. -/
abbrev Row := List Cell

/-- A `table` element: its CSS classes and its optional `tbody` rows. -/
structure Table where
  classes : List String
  tbody : Option (List Row)
deriving DecidableEq, Inhabited

/-- One extracted commodity record; all fields are stored as text. -/
structure CommodityRecord where
  category : String
  name : String
  price : String
  percentage_change : String
  absolute_change : String
  unit : String
  market_time : String
  trend : String
deriving DecidableEq, Inhabited

/-- Python `str.strip()`: the text with leading and trailing whitespace
removed (written over the character list so that it evaluates by kernel
reduction). -/
def strip (s : String) : String :=
  ⟨((s.data.dropWhile Char.isWhitespace).reverse.dropWhile Char.isWhitespace).reverse⟩

/-- `soup.find_all('table', class_='table')`: the tables carrying class `table`. -/
def matchedTables (doc : List Table) : List Table :=
  doc.filter (fun t => t.classes.contains "table")

/-- The fixed category list of the source. -/
def categories : List String :=
  ["Precious Metals", "Energy", "Industrial Metals", "Agriculture"]

/-- `cell.find('a')`: first descendant anchor element. -/
def findAnchor (c : Cell) : Option Elem :=
  c.children.find? (fun e => e.tag == "a")

/-- `cell.find('span', class_='push-data')`: first descendant span with the
`push-data` class. -/
def findPushSpan (c : Cell) : Option Elem :=
  c.children.find? (fun e => e.tag == "span" && e.classes.contains "push-data")

/-- `span.text.strip() if span else cell.text.strip()`. -/
def spanOrCellText (s : Option Elem) (c : Cell) : String :=
  match s with
  | some e => strip e.text
  | none => strip c.text

/-- The trend derived from the CSS classes of the percentage cell's
`push-data` span: `colorGreen` gives `up`, else `colorRed` gives `down`,
else (also when the span is absent) `neutral`. -/
def trendOfSpan : Option Elem → String
  | none => "neutral"
  | some s =>
    if s.classes.contains "colorGreen" then "up"
    else if s.classes.contains "colorRed" then "down"
    else "neutral"

/-- `cells[k]` under the guard `len(cells) >= 6`. -/
def cellAt (cells : Row) (k : Nat) : Cell :=
  cells.getD k default

/-- The record built from one row of at least six cells (lines 59-98 of the
source): the name prefers a nested anchor, price / percentage / absolute
change and market time prefer a nested `push-data` span, the unit is the raw
cell text, and every value is stripped of surrounding whitespace. -/
def rowRecord (category : String) (cells : Row) : CommodityRecord :=
  let c0 := cellAt cells 0
  let name_cell := findAnchor c0
  let commodity_name := spanOrCellText name_cell c0
  let price := spanOrCellText (findPushSpan (cellAt cells 1)) (cellAt cells 1)
  let pct_span := findPushSpan (cellAt cells 2)
  let pct_change := spanOrCellText pct_span (cellAt cells 2)
  let abs_change := spanOrCellText (findPushSpan (cellAt cells 3)) (cellAt cells 3)
  let unit := strip (cellAt cells 4).text
  let date_time := spanOrCellText (findPushSpan (cellAt cells 5)) (cellAt cells 5)
  { category := category
    name := commodity_name
    price := price
    percentage_change := pct_change
    absolute_change := abs_change
    unit := unit
    market_time := date_time
    trend := trendOfSpan pct_span }

/-- `table.find('tbody').find_all('tr') if table.find('tbody') else []`. -/
def tableRows (t : Table) : List Row :=
  t.tbody.getD []

/-- The row loop of the source: a row contributes one record when it has at
least six cells and nothing otherwise. -/
def processRows (category : String) (rows : List Row) : List CommodityRecord :=
  rows.flatMap (fun cells =>
    if 6 ≤ cells.length then [rowRecord category cells] else [])

/-- The table loop of the source (`for i, table in enumerate(tables[:4])`
with the `if i >= len(categories): break` guard), running over the already
truncated table list with the running index `i`. -/
def processTables (i : Nat) : List Table → List CommodityRecord
  | [] => []
  | t :: ts =>
    if categories.length ≤ i then []
    else processRows (categories.getD i "") (tableRows t) ++ processTables (i + 1) ts

/-- Extraction from a parsed document: filter the tables by class, keep the
first four, and run the table loop. -/
def extractCommodities (doc : List Table) : List CommodityRecord :=
  processTables 0 ((matchedTables doc).take 4)

/-- The two `except` branches of `scrape_commodity_prices`: a
`requests.RequestException` (network / transport failure, including the
`raise_for_status` on a non-2xx response) and any other exception raised
while parsing. -/
inductive ScrapeError where
  | requestException
  | parseException
deriving DecidableEq

/-- `scrape_commodity_prices`, with the outcome of the fetch-and-parse step
passed in explicitly: both exception branches return the empty list, and a
parsed document goes through extraction. -/
def scrape_commodity_prices (fetched : Except ScrapeError (List Table)) :
    List CommodityRecord :=
  match fetched with
  | .error _ => []
  | .ok doc => extractCommodities doc

/-- JSON values, as written by `json.dump` and read back by `json.load`:
the file holds exactly this value (the textual serialization round-trips
through the standard library and is not re-modelled here). -/
inductive Json where
  | str (s : String)
  | num (n : Nat)
  | arr (xs : List Json)
  | obj (kvs : List (String × Json))
deriving Inhabited

/-- Key lookup inside a JSON object. -/
def jsonLookup (j : Json) (k : String) : Option Json :=
  match j with
  | .obj kvs => (kvs.find? (fun kv => kv.1 == k)).map (fun kv => kv.2)
  | _ => none

/-- The JSON object serialized for one record (the `commodity_data` dict,
keys in insertion order). -/
def encodeRecord (r : CommodityRecord) : Json :=
  .obj [("category", .str r.category),
        ("name", .str r.name),
        ("price", .str r.price),
        ("percentage_change", .str r.percentage_change),
        ("absolute_change", .str r.absolute_change),
        ("unit", .str r.unit),
        ("market_time", .str r.market_time),
        ("trend", .str r.trend)]

/-- `set(item['category'] for item in commodities_data)`, modelled as the
deduplicated category list (the iteration order of a Python set is
arbitrary; none of the stated properties depends on it). -/
def distinctCategories (data : List CommodityRecord) : List String :=
  (data.map (fun r => r.category)).dedup

/-- `[item for item in commodities_data if item['category'] == category]`. -/
def categoryItems (data : List CommodityRecord) (c : String) :
    List CommodityRecord :=
  data.filter (fun r => r.category = c)

/-- The `data_structure` dict of `save_data`. -/
def data_structure (ts : String) (data : List CommodityRecord) : Json :=
  .obj [("scrape_timestamp_utc", .str ts),
        ("total_commodities", .num data.length),
        ("categories", .num (distinctCategories data).length),
        ("commodities", .arr (data.map encodeRecord))]

/-- One entry of the `categories_summary` dict: the category, its item
count, and its commodity names in input order. -/
def categoriesSummary (data : List CommodityRecord) :
    List (String × Nat × List String) :=
  (distinctCategories data).map (fun c =>
    (c, (categoryItems data c).length,
        (categoryItems data c).map (fun r => r.name)))

/-- The `summary` dict of `save_data`. -/
def summaryJson (ts : String) (data : List CommodityRecord) : Json :=
  .obj [("last_updated_utc", .str ts),
        ("total_commodities", .num data.length),
        ("categories_summary",
         .obj ((categoriesSummary data).map (fun e =>
           (e.1, Json.obj [("count", .num e.2.1),
                           ("commodities", .arr (e.2.2.map Json.str))]))))]

/-- The CSV column row for one record: the dict fields in key order followed
by the `scrape_timestamp_utc` column appended to the data frame. -/
def csvRow (ts : String) (r : CommodityRecord) : List String :=
  [r.category, r.name, r.price, r.percentage_change, r.absolute_change,
   r.unit, r.market_time, r.trend, ts]

/-- The CSV header written by `to_csv`. -/
def csvHeader : List String :=
  ["category", "name", "price", "percentage_change", "absolute_change",
   "unit", "market_time", "trend", "scrape_timestamp_utc"]

/-- All data rows of the CSV output. -/
def csvRows (ts : String) (data : List CommodityRecord) : List (List String) :=
  data.map (csvRow ts)

/-- A file is either a JSON document or a CSV table. -/
inductive FileContent where
  | json (j : Json)
  | csv (header : List String) (rows : List (List String))

/-- The filesystem state: file contents by path, and the set of directories. -/
structure FS where
  files : String → Option FileContent
  dirs : List String

/-- Writing (or overwriting) one file. -/
def fsWrite (fs : FS) (path : String) (c : FileContent) : FS :=
  { fs with files := fun p => if p = path then some c else fs.files p }

/-- `os.makedirs('data', exist_ok=True)`. -/
def fsMkdirData (fs : FS) : FS :=
  { fs with dirs := if fs.dirs.contains "data" then fs.dirs else "data" :: fs.dirs }

/-- The per-run timestamped JSON path, from the `strftime` stamp. -/
def jsonFilename (stamp : String) : String :=
  "data/commodity_prices_" ++ stamp ++ ".json"

/-- The per-run timestamped CSV path, from the `strftime` stamp. -/
def csvFilename (stamp : String) : String :=
  "data/commodity_prices_" ++ stamp ++ ".csv"

/-- `save_data`: on an empty list, return with the filesystem untouched;
otherwise create `data/`, write the timestamped JSON and CSV snapshots,
overwrite the latest JSON / CSV pair, and write the summary JSON.  The ISO
timestamp `ts` and the two `strftime` stamps are clock readings passed in
explicitly. -/
def save_data (ts jsonStamp csvStamp : String) (commodities_data : List CommodityRecord)
    (fs : FS) : FS :=
  if commodities_data.isEmpty then fs
  else
    let fs1 := fsMkdirData fs
    let ds := data_structure ts commodities_data
    let fs2 := fsWrite fs1 (jsonFilename jsonStamp) (.json ds)
    let fs3 := fsWrite fs2 (csvFilename csvStamp)
      (.csv csvHeader (csvRows ts commodities_data))
    let fs4 := fsWrite fs3 "data/latest_prices.json" (.json ds)
    let fs5 := fsWrite fs4 "data/latest_prices.csv"
      (.csv csvHeader (csvRows ts commodities_data))
    fsWrite fs5 "data/summary.json" (.json (summaryJson ts commodities_data))

/-- `main`: scrape, then either save and exit 0, or exit 1 on an empty
result.  Returns the exit status together with the final filesystem. -/
def main (fetched : Except ScrapeError (List Table)) (ts jsonStamp csvStamp : String)
    (fs : FS) : Nat × FS :=
  let commodities := scrape_commodity_prices fetched
  if commodities.isEmpty then (1, fs)
  else (0, save_data ts jsonStamp csvStamp commodities fs)

/-- Modelled from the spec: reading back the latest-JSON file and
deserializing it into records — the round-trip side of the claim, which has
no counterpart in the source.  It takes the `commodities` key of the stored
object and rebuilds one record per element from its string fields. -/
def decodeRecord (j : Json) : Option CommodityRecord := do
  let asStr : Option Json → Option String := fun x =>
    match x with
    | some (.str s) => some s
    | _ => none
  let category ← asStr (jsonLookup j "category")
  let name ← asStr (jsonLookup j "name")
  let price ← asStr (jsonLookup j "price")
  let pct ← asStr (jsonLookup j "percentage_change")
  let abs ← asStr (jsonLookup j "absolute_change")
  let unit ← asStr (jsonLookup j "unit")
  let market_time ← asStr (jsonLookup j "market_time")
  let trend ← asStr (jsonLookup j "trend")
  pure ⟨category, name, price, pct, abs, unit, market_time, trend⟩

/-- Modelled from the spec: deserializing each element of the stored
`commodities` array in order. -/
def decodeList : List Json → Option (List CommodityRecord)
  | [] => some []
  | j :: js => do
    let r ← decodeRecord j
    let rs ← decodeList js
    pure (r :: rs)

/-- Modelled from the spec: deserializing the whole latest-JSON document
back into the record list. -/
def readBackCommodities (j : Json) : Option (List CommodityRecord) :=
  match jsonLookup j "commodities" with
  | some (.arr xs) => decodeList xs
  | _ => none

/-! Concrete sample inputs used to instantiate the theorems. -/

/-- A sample six-cell row: anchor name, `push-data` spans, green percentage
marker. -/
def sampleRowUp : Row :=
  [⟨[⟨"a", [], " Gold "⟩], "rawname"⟩,
   ⟨[⟨"span", ["push-data"], " 2,000.5 "⟩], "rawprice"⟩,
   ⟨[⟨"span", ["push-data", "colorGreen"], " +1.5% "⟩], "rawpct"⟩,
   ⟨[⟨"span", ["push-data"], "+20"⟩], "rawabs"⟩,
   ⟨[], " USD "⟩,
   ⟨[⟨"span", ["push-data"], "10:00"⟩], "rawtime"⟩]

/-- A sample six-cell row with a red percentage marker and no nested
elements in the name cell. -/
def sampleRowDown : Row :=
  [⟨[], " Oil "⟩,
   ⟨[⟨"span", ["push-data"], "80.1"⟩], "rawprice"⟩,
   ⟨[⟨"span", ["push-data", "colorRed"], "-0.9%"⟩], "rawpct"⟩,
   ⟨[⟨"span", ["push-data"], "-0.7"⟩], "rawabs"⟩,
   ⟨[], "USD"⟩,
   ⟨[], " 10:05 "⟩]

/-- A sample row with only one cell. -/
def sampleShortRow : Row :=
  [⟨[], "lonely"⟩]

/-- A table of the matched class holding the given rows. -/
def sampleTable (rows : List Row) : Table :=
  ⟨["table"], some rows⟩

/-- A sample document: four well-formed matched tables plus a fifth one. -/
def sampleDoc : List Table :=
  [sampleTable [sampleRowUp], sampleTable [sampleRowDown],
   sampleTable [sampleRowUp, sampleRowDown], sampleTable [sampleRowDown],
   sampleTable [sampleRowUp]]

/-- A sample first cell holding a `push-data` live-value span but no anchor
element. -/
def sampleCexRow : Row :=
  [⟨[⟨"span", ["push-data"], " 123.45 "⟩], " Gold "⟩,
   ⟨[⟨"span", ["push-data"], "2000"⟩], "rawprice"⟩,
   ⟨[⟨"span", ["push-data", "colorGreen"], "+1%"⟩], "rawpct"⟩,
   ⟨[⟨"span", ["push-data"], "+20"⟩], "rawabs"⟩,
   ⟨[], "USD"⟩,
   ⟨[⟨"span", ["push-data"], "10:00"⟩], "rawtime"⟩]

/-- A sample document with no table of the matched class. -/
def sampleDocNoMatch : List Table :=
  [⟨["fancy"], some [sampleRowUp]⟩]

/-- A sample document whose matched tables all lack a `tbody`. -/
def sampleDocNoTbody : List Table :=
  [⟨["table"], none⟩, ⟨["table"], none⟩]

/-- A sample record list spanning two categories. -/
def sampleRecords : List CommodityRecord :=
  [⟨"Precious Metals", "Gold", "2000", "+1%", "+20", "USD", "10:00", "up"⟩,
   ⟨"Energy", "Oil", "80", "-1%", "-0.8", "USD", "10:01", "down"⟩,
   ⟨"Precious Metals", "Silver", "25", "0%", "0", "USD", "10:02", "neutral"⟩]

/-- The empty filesystem. -/
def emptyFS : FS :=
  ⟨fun _ => none, []⟩

/-! Helper lemmas shared between the claims. -/

/-- The trend of a built record is derived from the percentage cell's span. -/
theorem rowRecord_trend (cat : String) (cells : Row) :
    (rowRecord cat cells).trend = trendOfSpan (findPushSpan (cellAt cells 2)) :=
  rfl

/-- `trendOfSpan` only takes the three expected values. -/
theorem trendOfSpan_mem (s : Option Elem) :
    trendOfSpan s = "up" ∨ trendOfSpan s = "down" ∨ trendOfSpan s = "neutral" := by
  cases s with
  | none => right; right; rfl
  | some e =>
    by_cases hg : "colorGreen" ∈ e.classes <;>
      by_cases hr : "colorRed" ∈ e.classes <;>
      simp [trendOfSpan, hg, hr]

/-- Every record produced by the row loop is built by `rowRecord`. -/
theorem mem_processRows (cat : String) (rows : List Row) (r : CommodityRecord)
    (h : r ∈ processRows cat rows) : ∃ cells, r = rowRecord cat cells := by
  simp only [processRows, List.mem_flatMap] at h
  obtain ⟨cells, -, hr⟩ := h
  by_cases h6 : 6 ≤ cells.length
  · rw [if_pos h6] at hr
    simp only [List.mem_singleton] at hr
    exact ⟨cells, hr⟩
  · rw [if_neg h6] at hr
    simp at hr

/-- Every record produced by the table loop is built by `rowRecord`. -/
theorem mem_processTables (ts : List Table) (i : Nat) (r : CommodityRecord)
    (h : r ∈ processTables i ts) : ∃ cat cells, r = rowRecord cat cells := by
  induction ts generalizing i with
  | nil => simp [processTables] at h
  | cons t ts ih =>
    simp only [processTables] at h
    by_cases hc : categories.length ≤ i
    · rw [if_pos hc] at h
      simp at h
    · rw [if_neg hc] at h
      rcases List.mem_append.mp h with h | h
      · obtain ⟨cells, hcell⟩ := mem_processRows _ _ _ h
        exact ⟨_, cells, hcell⟩
      · exact ih _ h

/-- When every row has at least six cells, the row loop is a plain map. -/
theorem processRows_eq_map (cat : String) (rows : List Row)
    (h : ∀ r ∈ rows, 6 ≤ r.length) :
    processRows cat rows = rows.map (rowRecord cat) := by
  induction rows with
  | nil => rfl
  | cons r rs ih =>
    simp only [processRows, List.flatMap_cons, List.map_cons] at *
    rw [if_pos (h r (List.mem_cons_self ..)), List.singleton_append]
    exact congrArg _ (ih fun x hx => h x (List.mem_cons_of_mem _ hx))

/-! The claims. -/

/-- C4: a table row with fewer than six cells contributes no record: the row
loop gives the same output with the row removed, so no partial record is
ever appended. -/
theorem claim_C4_short_row_skipped (cat : String) (pre post : List Row) (r : Row)
    (h : r.length < 6) :
    processRows cat (pre ++ r :: post) = processRows cat (pre ++ post) := by
  simp only [processRows, List.flatMap_append, List.flatMap_cons]
  rw [if_neg (by omega)]
  simp

/-- Witness for C4 at a concrete one-cell row between two six-cell rows. -/
theorem claim_C4_short_row_skipped_witness :
    sampleShortRow.length < 6 ∧
      processRows "Energy" ([sampleRowUp] ++ sampleShortRow :: [sampleRowDown]) =
        processRows "Energy" ([sampleRowUp] ++ [sampleRowDown]) :=
  ⟨by decide,
   claim_C4_short_row_skipped "Energy" [sampleRowUp] [sampleRowDown] sampleShortRow
     (by decide)⟩

/-- C2: the trend of every extracted record is one of `up`, `down`,
`neutral`; it is `up` when the percentage cell's `push-data` span carries
`colorGreen`, `down` when it carries `colorRed` (and not `colorGreen`), and
`neutral` otherwise, in particular when the span is absent. -/
theorem claim_C2_trend_from_marker :
    (∀ doc r, r ∈ extractCommodities doc →
        r.trend = "up" ∨ r.trend = "down" ∨ r.trend = "neutral") ∧
    (∀ cat cells,
      (findPushSpan (cellAt cells 2) = none →
        (rowRecord cat cells).trend = "neutral") ∧
      (∀ e, findPushSpan (cellAt cells 2) = some e →
        (("colorGreen" ∈ e.classes → (rowRecord cat cells).trend = "up") ∧
         ("colorGreen" ∉ e.classes → "colorRed" ∈ e.classes →
            (rowRecord cat cells).trend = "down") ∧
         ("colorGreen" ∉ e.classes → "colorRed" ∉ e.classes →
            (rowRecord cat cells).trend = "neutral")))) := by
  constructor
  · intro doc r hr
    obtain ⟨cat, cells, rfl⟩ := mem_processTables _ _ _ hr
    rw [rowRecord_trend]
    exact trendOfSpan_mem _
  · intro cat cells
    constructor
    · intro hnone
      rw [rowRecord_trend, hnone]
      rfl
    · intro e he
      rw [rowRecord_trend, he]
      simp only [trendOfSpan]
      refine ⟨fun hg => ?_, fun hg hr => ?_, fun hg hr => ?_⟩
      · rw [if_pos (List.elem_iff.mpr hg)]
      · rw [if_neg (fun hc => hg (List.elem_iff.mp hc)),
          if_pos (List.elem_iff.mpr hr)]
      · rw [if_neg (fun hc => hg (List.elem_iff.mp hc)),
          if_neg (fun hc => hr (List.elem_iff.mp hc))]

/-- Witness for C2 at the concrete sample document and rows. -/
theorem claim_C2_trend_from_marker_witness :
    ((rowRecord "Precious Metals" sampleRowUp).trend = "up" ∨
      (rowRecord "Precious Metals" sampleRowUp).trend = "down" ∨
      (rowRecord "Precious Metals" sampleRowUp).trend = "neutral") ∧
    (rowRecord "Energy" sampleRowDown).trend = "down" := by
  constructor
  · exact claim_C2_trend_from_marker.1 sampleDoc _ (by decide)
  · exact (((claim_C2_trend_from_marker.2 "Energy" sampleRowDown).2
      ⟨"span", ["push-data", "colorRed"], "-0.9%"⟩ (by decide)).2.1 (by decide) (by decide))

/-- C3 counterexample: in the first cell the extractor looks for a nested
anchor, not for the `push-data` live-value element: with a live-value span
present (trimmed text `123.45`) and no anchor, the stored name is the raw
cell text `Gold`, not the live value. -/
theorem claim_C3_counterexample :
    (findPushSpan (cellAt sampleCexRow 0)).isSome = true ∧
    (findPushSpan (cellAt sampleCexRow 0)).map (fun e => strip e.text) =
      some "123.45" ∧
    (rowRecord "Precious Metals" sampleCexRow).name = "Gold" ∧
    ("Gold" : String) ≠ "123.45" := by
  decide

/-- C3 amended: the name cell (index 0) prefers the text of a nested anchor
element, while cells 1-3 prefer the text of the nested `push-data`
live-value element; each falls back to the raw cell text when the preferred
element is absent, and every stored value is stripped of surrounding
whitespace. -/
theorem claim_C3_cell_text_extraction (cat : String) (cells : Row) :
    (∀ a, findAnchor (cellAt cells 0) = some a →
      (rowRecord cat cells).name = strip a.text) ∧
    (findAnchor (cellAt cells 0) = none →
      (rowRecord cat cells).name = strip (cellAt cells 0).text) ∧
    (∀ e, findPushSpan (cellAt cells 1) = some e →
      (rowRecord cat cells).price = strip e.text) ∧
    (findPushSpan (cellAt cells 1) = none →
      (rowRecord cat cells).price = strip (cellAt cells 1).text) ∧
    (∀ e, findPushSpan (cellAt cells 2) = some e →
      (rowRecord cat cells).percentage_change = strip e.text) ∧
    (findPushSpan (cellAt cells 2) = none →
      (rowRecord cat cells).percentage_change = strip (cellAt cells 2).text) ∧
    (∀ e, findPushSpan (cellAt cells 3) = some e →
      (rowRecord cat cells).absolute_change = strip e.text) ∧
    (findPushSpan (cellAt cells 3) = none →
      (rowRecord cat cells).absolute_change = strip (cellAt cells 3).text) := by
  refine ⟨?_, ?_, ?_, ?_, ?_, ?_, ?_, ?_⟩ <;> intros <;>
    simp_all [rowRecord, spanOrCellText]

/-- Witness for C3 at concrete rows, covering both the anchor-present and
the anchor-absent case of the name cell. -/
theorem claim_C3_cell_text_extraction_witness :
    (rowRecord "Precious Metals" sampleRowUp).name = strip " Gold " ∧
    (rowRecord "Energy" sampleRowDown).name = strip " Oil " :=
  ⟨(claim_C3_cell_text_extraction "Precious Metals" sampleRowUp).1
      ⟨"a", [], " Gold "⟩ (by decide),
   (claim_C3_cell_text_extraction "Energy" sampleRowDown).2.1 (by decide)⟩

/-- Two pointwise equal row bodies give the same flat map. -/
theorem flatMap_congr {α β : Type} (l : List α) (f g : α → List β)
    (h : ∀ a ∈ l, f a = g a) : l.flatMap f = l.flatMap g := by
  induction l with
  | nil => rfl
  | cons a l ih =>
    simp only [List.flatMap_cons]
    rw [h a (List.mem_cons_self ..), ih fun x hx => h x (List.mem_cons_of_mem _ hx)]

/-- The table loop pairs each table with the category at its position. -/
theorem processTables_eq_zip (ts : List Table) (i : Nat) (h : ts.length + i ≤ 4) :
    processTables i ts =
      (ts.zip (categories.drop i)).flatMap
        (fun p => processRows p.2 (tableRows p.1)) := by
  induction ts generalizing i with
  | nil => simp [processTables]
  | cons t ts ih =>
    have hi : i < 4 := by
      simp only [List.length_cons] at h
      omega
    have hdrop : categories.drop i = categories.getD i "" :: categories.drop (i + 1) := by
      interval_cases i <;> rfl
    have hcat : ¬ categories.length ≤ i := by
      have : categories.length = 4 := rfl
      omega
    simp only [List.length_cons] at h
    rw [processTables, if_neg hcat, hdrop, List.zip_cons_cons, List.flatMap_cons,
      ih (i + 1) (by omega)]

/-- Tables without rows contribute nothing. -/
theorem processTables_no_rows (ts : List Table) (i : Nat)
    (h : ∀ t ∈ ts, tableRows t = []) : processTables i ts = [] := by
  induction ts generalizing i with
  | nil => rfl
  | cons t ts ih =>
    rw [processTables]
    by_cases hc : categories.length ≤ i
    · rw [if_pos hc]
    · rw [if_neg hc, h t (List.mem_cons_self ..),
        ih (i + 1) fun x hx => h x (List.mem_cons_of_mem _ hx)]
      rfl

/-- C1: on a document whose first four matched tables are well formed (a
`tbody` whose rows all have at least six cells), extraction yields one
record per row in table-then-row order, each table paired positionally with
the fixed category list, and appending further tables to the document
changes nothing. -/
theorem claim_C1_extraction_shape (doc : List Table)
    (h4 : 4 ≤ (matchedTables doc).length)
    (hwf : ∀ t ∈ (matchedTables doc).take 4,
      t.tbody.isSome ∧ ∀ row ∈ tableRows t, 6 ≤ row.length) :
    extractCommodities doc =
      (((matchedTables doc).take 4).zip categories).flatMap
        (fun p => (tableRows p.1).map (rowRecord p.2)) ∧
    (extractCommodities doc).length =
      (((matchedTables doc).take 4).map (fun t => (tableRows t).length)).sum ∧
    ∀ extra, extractCommodities (doc ++ extra) = extractCommodities doc := by
  have hlen : ((matchedTables doc).take 4).length = 4 := by
    rw [List.length_take]
    omega
  have h1 : extractCommodities doc =
      (((matchedTables doc).take 4).zip categories).flatMap
        (fun p => (tableRows p.1).map (rowRecord p.2)) := by
    rw [extractCommodities, processTables_eq_zip _ 0 (by omega), List.drop_zero]
    refine flatMap_congr _ _ _ fun p hp => ?_
    exact processRows_eq_map _ _ fun r hr =>
      (hwf p.1 (List.of_mem_zip hp).1).2 r hr
  refine ⟨h1, ?_, ?_⟩
  · have hfst : (((matchedTables doc).take 4).zip categories).map Prod.fst =
        (matchedTables doc).take 4 :=
      List.map_fst_zip _ _ (by rw [hlen]; rfl)
    have hmaps : (((matchedTables doc).take 4).zip categories).map
          ((fun t => (tableRows t).length) ∘ Prod.fst) =
        ((matchedTables doc).take 4).map (fun t => (tableRows t).length) := by
      rw [← List.map_map, hfst]
    rw [h1, List.length_flatMap]
    simp only [Function.comp_def, List.length_map]
    exact congrArg List.sum hmaps
  · intro extra
    have hm : matchedTables (doc ++ extra) = matchedTables doc ++ matchedTables extra := by
      simp [matchedTables, List.filter_append]
    rw [extractCommodities, extractCommodities, hm,
      List.take_append_of_le_length h4]

/-- Witness for C1 at the concrete five-table sample document. -/
theorem claim_C1_extraction_shape_witness :
    (extractCommodities sampleDoc).length =
      (((matchedTables sampleDoc).take 4).map (fun t => (tableRows t).length)).sum :=
  (claim_C1_extraction_shape sampleDoc (by decide) (by decide)).2.1

/-- C5: both exception branches (network / transport failure and parse
failure) return the empty list with no exception escaping, the two error
kinds give results the caller cannot tell apart, and the structural parse
failures — no matched table, matched tables without a `tbody` — also give
the empty list. -/
theorem claim_C5_failures_empty :
    (∀ e, scrape_commodity_prices (.error e) = []) ∧
    scrape_commodity_prices (.error .requestException) =
      scrape_commodity_prices (.error .parseException) ∧
    (∀ doc, matchedTables doc = [] → scrape_commodity_prices (.ok doc) = []) ∧
    (∀ doc, (∀ t ∈ matchedTables doc, t.tbody = none) →
      scrape_commodity_prices (.ok doc) = []) := by
  refine ⟨fun e => rfl, rfl, fun doc h => ?_, fun doc h => ?_⟩
  · show extractCommodities doc = []
    rw [extractCommodities, h]
    rfl
  · show extractCommodities doc = []
    rw [extractCommodities]
    refine processTables_no_rows _ _ fun t ht => ?_
    rw [tableRows, h t (List.mem_of_mem_take ht)]
    rfl

/-- Witness for C5 at concrete documents with no matched table and with
`tbody`-less tables. -/
theorem claim_C5_failures_empty_witness :
    scrape_commodity_prices (.ok sampleDocNoMatch) = [] ∧
    scrape_commodity_prices (.ok sampleDocNoTbody) = [] :=
  ⟨claim_C5_failures_empty.2.2.1 sampleDocNoMatch (by decide),
   claim_C5_failures_empty.2.2.2 sampleDocNoTbody (by decide)⟩

/-- C6: the process exit status is 0 exactly when at least one record was
scraped and 1 exactly when none was. -/
theorem claim_C6_exit_status (fetched : Except ScrapeError (List Table))
    (ts jsonStamp csvStamp : String) (fs : FS) :
    ((main fetched ts jsonStamp csvStamp fs).1 = 0 ↔
      1 ≤ (scrape_commodity_prices fetched).length) ∧
    ((main fetched ts jsonStamp csvStamp fs).1 = 1 ↔
      (scrape_commodity_prices fetched).length = 0) := by
  simp only [main]
  cases hsc : scrape_commodity_prices fetched with
  | nil => simp
  | cons r rs => simp

/-- C9: on the empty record list, `save_data` returns with the filesystem —
files and directories alike — untouched. -/
theorem claim_C9_empty_save_noop (ts jsonStamp csvStamp : String) (fs : FS) :
    save_data ts jsonStamp csvStamp [] fs = fs :=
  rfl

/-- Decoding inverts encoding on one record. -/
theorem decodeRecord_encodeRecord (r : CommodityRecord) :
    decodeRecord (encodeRecord r) = some r :=
  rfl

/-- Decoding inverts encoding on a record list. -/
theorem decodeList_map_encode (data : List CommodityRecord) :
    decodeList (data.map encodeRecord) = some data := by
  induction data with
  | nil => rfl
  | cons r rs ih => simp [decodeList, decodeRecord_encodeRecord, ih]

/-- A nonempty list is not `isEmpty`. -/
theorem not_isEmpty_of_ne_nil {α : Type} {l : List α} (h : l ≠ []) :
    ¬ l.isEmpty = true :=
  fun hc => h (List.isEmpty_iff.mp hc)

/-- C7: for a nonempty record list, `save_data` stores the full data
structure in `data/latest_prices.json`, and deserializing that stored
document yields back exactly the in-memory record list — same count, same
field values. -/
theorem claim_C7_latest_json_round_trip (ts jsonStamp csvStamp : String)
    (data : List CommodityRecord) (fs : FS) (h : data ≠ []) :
    (save_data ts jsonStamp csvStamp data fs).files "data/latest_prices.json" =
      some (.json (data_structure ts data)) ∧
    readBackCommodities (data_structure ts data) = some data := by
  constructor
  · simp only [save_data, if_neg (not_isEmpty_of_ne_nil h), fsWrite]
    rw [if_neg (by decide), if_neg (by decide)]
    simp
  · have hread : readBackCommodities (data_structure ts data) =
        decodeList (data.map encodeRecord) := rfl
    rw [hread, decodeList_map_encode]

/-- Witness for C7 at the concrete sample record list. -/
theorem claim_C7_latest_json_round_trip_witness :
    readBackCommodities
        (data_structure "2024-01-01T00:00:00+00:00" sampleRecords) =
      some sampleRecords :=
  (claim_C7_latest_json_round_trip "2024-01-01T00:00:00+00:00"
    "20240101_000000" "20240101_000001" sampleRecords emptyFS (by decide)).2

/-- Length of the timestamped JSON path. -/
theorem jsonFilename_length (s : String) :
    (jsonFilename s).length = 27 + s.length := by
  have h1 : ("data/commodity_prices_" : String).length = 22 := rfl
  have h2 : (".json" : String).length = 5 := rfl
  rw [jsonFilename, String.length_append, String.length_append, h1, h2]
  omega

/-- Length of the timestamped CSV path. -/
theorem csvFilename_length (s : String) :
    (csvFilename s).length = 26 + s.length := by
  have h1 : ("data/commodity_prices_" : String).length = 22 := rfl
  have h2 : (".csv" : String).length = 4 := rfl
  rw [csvFilename, String.length_append, String.length_append, h1, h2]
  omega

/-- The timestamped paths never collide with the three fixed paths. -/
theorem stamped_ne_fixed (s : String) (fixed : String)
    (hfix : fixed.length < 26) :
    jsonFilename s ≠ fixed ∧ csvFilename s ≠ fixed := by
  constructor <;> intro he <;>
    [have hc := congrArg String.length he;
     have hc := congrArg String.length he] <;>
    [rw [jsonFilename_length] at hc; rw [csvFilename_length] at hc] <;>
    omega

/-- C8: on a nonempty record list, `save_data` writes every configured
output — the timestamped JSON and CSV snapshots, the overwritten
`latest_prices` JSON / CSV pair, and the summary JSON — creates the `data`
directory, and stamps each output with the run's ISO timestamp (JSON via a
timestamp key, CSV via the final timestamp column of every row). -/
theorem claim_C8_all_outputs_written (ts jsonStamp csvStamp : String)
    (data : List CommodityRecord) (fs : FS) (h : data ≠ [])
    (hname : jsonFilename jsonStamp ≠ csvFilename csvStamp) :
    (save_data ts jsonStamp csvStamp data fs).files (jsonFilename jsonStamp) =
      some (.json (data_structure ts data)) ∧
    (save_data ts jsonStamp csvStamp data fs).files (csvFilename csvStamp) =
      some (.csv csvHeader (csvRows ts data)) ∧
    (save_data ts jsonStamp csvStamp data fs).files "data/latest_prices.json" =
      some (.json (data_structure ts data)) ∧
    (save_data ts jsonStamp csvStamp data fs).files "data/latest_prices.csv" =
      some (.csv csvHeader (csvRows ts data)) ∧
    (save_data ts jsonStamp csvStamp data fs).files "data/summary.json" =
      some (.json (summaryJson ts data)) ∧
    "data" ∈ (save_data ts jsonStamp csvStamp data fs).dirs ∧
    jsonLookup (data_structure ts data) "scrape_timestamp_utc" =
      some (.str ts) ∧
    jsonLookup (summaryJson ts data) "last_updated_utc" = some (.str ts) ∧
    ∀ row ∈ csvRows ts data, row.getLast? = some ts := by
  have hsum : ("data/summary.json" : String).length = 17 := rfl
  have hlcsv : ("data/latest_prices.csv" : String).length = 22 := rfl
  have hljson : ("data/latest_prices.json" : String).length = 23 := rfl
  have hj1 := stamped_ne_fixed jsonStamp "data/summary.json" (by omega)
  have hj2 := stamped_ne_fixed jsonStamp "data/latest_prices.csv" (by omega)
  have hj3 := stamped_ne_fixed jsonStamp "data/latest_prices.json" (by omega)
  have hc1 := stamped_ne_fixed csvStamp "data/summary.json" (by omega)
  have hc2 := stamped_ne_fixed csvStamp "data/latest_prices.csv" (by omega)
  have hc3 := stamped_ne_fixed csvStamp "data/latest_prices.json" (by omega)
  refine ⟨?_, ?_, ?_, ?_, ?_, ?_, rfl, rfl, ?_⟩
  · simp only [save_data, if_neg (not_isEmpty_of_ne_nil h), fsWrite]
    rw [if_neg hj1.1, if_neg hj2.1, if_neg hj3.1, if_neg hname]
    simp
  · simp only [save_data, if_neg (not_isEmpty_of_ne_nil h), fsWrite]
    rw [if_neg hc1.2, if_neg hc2.2, if_neg hc3.2]
    simp
  · simp only [save_data, if_neg (not_isEmpty_of_ne_nil h), fsWrite]
    rw [if_neg (by decide), if_neg (by decide)]
    simp
  · simp only [save_data, if_neg (not_isEmpty_of_ne_nil h), fsWrite]
    rw [if_neg (by decide)]
    simp
  · simp only [save_data, if_neg (not_isEmpty_of_ne_nil h), fsWrite]
    simp
  · simp only [save_data, if_neg (not_isEmpty_of_ne_nil h), fsWrite, fsMkdirData]
    by_cases hd : fs.dirs.contains "data"
    · rw [if_pos hd]
      exact List.elem_iff.mp hd
    · rw [if_neg hd]
      exact List.mem_cons_self ..
  · intro row hrow
    obtain ⟨r, -, rfl⟩ := List.mem_map.mp hrow
    rfl

/-- Witness for C8 at the concrete sample record list and stamps. -/
theorem claim_C8_all_outputs_written_witness :
    (save_data "2024-01-01T00:00:00+00:00" "20240101_000000" "20240101_000001"
        sampleRecords emptyFS).files "data/summary.json" =
      some (.json (summaryJson "2024-01-01T00:00:00+00:00" sampleRecords)) :=
  (claim_C8_all_outputs_written "2024-01-01T00:00:00+00:00" "20240101_000000"
    "20240101_000001" sampleRecords emptyFS (by decide) (by decide)).2.2.2.2.1

/-- Sum of an indicator over a list not containing the point is zero. -/
theorem sum_indicator_zero (a : String) (l : List String) (ha : a ∉ l) :
    (l.map (fun c => if a = c then (1 : Nat) else 0)).sum = 0 := by
  induction l with
  | nil => rfl
  | cons b l ih =>
    have hab : a ≠ b := fun he => ha (he ▸ List.mem_cons_self ..)
    simp only [List.map_cons, List.sum_cons, if_neg hab]
    rw [ih fun hm => ha (List.mem_cons_of_mem _ hm)]

/-- Sum of an indicator over a duplicate-free list containing the point is
one. -/
theorem sum_indicator_one (a : String) (l : List String) (hnd : l.Nodup)
    (ha : a ∈ l) :
    (l.map (fun c => if a = c then (1 : Nat) else 0)).sum = 1 := by
  induction l with
  | nil => cases ha
  | cons b l ih =>
    rw [List.nodup_cons] at hnd
    rcases List.mem_cons.mp ha with rfl | hm
    · simp only [List.map_cons, List.sum_cons, if_pos rfl]
      rw [sum_indicator_zero a l hnd.1]
      simp
    · have hab : a ≠ b := fun he => hnd.1 (he ▸ hm)
      simp only [List.map_cons, List.sum_cons, if_neg hab]
      rw [ih hnd.2 hm]

/-- Pointwise sums of mapped values split. -/
theorem sum_map_add (l : List String) (f g : String → Nat) :
    (l.map (fun c => f c + g c)).sum = (l.map f).sum + (l.map g).sum := by
  induction l with
  | nil => rfl
  | cons b l ih =>
    simp only [List.map_cons, List.sum_cons, ih]
    omega

/-- Splitting a category filter over a cons. -/
theorem categoryItems_cons_length (r : CommodityRecord)
    (rs : List CommodityRecord) (c : String) :
    (categoryItems (r :: rs) c).length =
      (if r.category = c then 1 else 0) + (categoryItems rs c).length := by
  by_cases hc : r.category = c <;> simp [categoryItems, List.filter_cons, hc] <;>
    omega

/-- Filter lengths over a duplicate-free list covering every category sum to
the data length. -/
theorem partition_count (l : List String) (data : List CommodityRecord)
    (hnd : l.Nodup) (hcov : ∀ r ∈ data, r.category ∈ l) :
    (l.map (fun c => (categoryItems data c).length)).sum = data.length := by
  induction data with
  | nil =>
    have hz : ∀ x ∈ l.map
        (fun c => (categoryItems ([] : List CommodityRecord) c).length), x = 0 := by
      intro x hx
      obtain ⟨c, -, rfl⟩ := List.mem_map.mp hx
      rfl
    rw [List.sum_eq_zero hz]
    rfl
  | cons r rs ih =>
    have hr : r.category ∈ l := hcov r (List.mem_cons_self ..)
    have hstep : (l.map (fun c => (categoryItems (r :: rs) c).length)).sum =
        (l.map (fun c => (if r.category = c then 1 else 0) +
          (categoryItems rs c).length)).sum := by
      refine congrArg List.sum (List.map_congr_left fun c _ => ?_)
      exact categoryItems_cons_length r rs c
    rw [hstep, sum_map_add, sum_indicator_one _ _ hnd hr,
      ih fun x hx => hcov x (List.mem_cons_of_mem _ hx), List.length_cons]
    omega

/-- C10: the summary is consistent with its input — the written total equals
the sum of the per-category counts which equals the record count, each
category's count is the length of its name list, each name list is exactly
the names of the input records of that category in input order, and the
summarised categories are exactly the categories occurring in the input. -/
theorem claim_C10_summary_consistent (ts : String)
    (data : List CommodityRecord) (h : data ≠ []) :
    jsonLookup (summaryJson ts data) "total_commodities" =
      some (.num data.length) ∧
    ((categoriesSummary data).map (fun e => e.2.1)).sum = data.length ∧
    (∀ e ∈ categoriesSummary data, e.2.1 = e.2.2.length) ∧
    (∀ e ∈ categoriesSummary data,
      e.2.2 = (data.filter (fun r => r.category = e.1)).map (fun r => r.name)) ∧
    (∀ c, (∃ e ∈ categoriesSummary data, e.1 = c) ↔ ∃ r ∈ data, r.category = c) := by
  refine ⟨rfl, ?_, ?_, ?_, ?_⟩
  · have hmm : (categoriesSummary data).map (fun e => e.2.1) =
        (distinctCategories data).map (fun c => (categoryItems data c).length) := by
      rw [categoriesSummary, List.map_map]
      rfl
    rw [hmm]
    refine partition_count _ _ (List.nodup_dedup _) fun r hr => ?_
    exact List.mem_dedup.mpr (List.mem_map_of_mem _ hr)
  · intro e he
    obtain ⟨c, -, rfl⟩ := List.mem_map.mp he
    simp
  · intro e he
    obtain ⟨c, -, rfl⟩ := List.mem_map.mp he
    rfl
  · intro c
    constructor
    · rintro ⟨e, he, rfl⟩
      obtain ⟨c', hc', rfl⟩ := List.mem_map.mp he
      have := List.mem_dedup.mp hc'
      obtain ⟨r, hr, hrc⟩ := List.mem_map.mp this
      exact ⟨r, hr, hrc⟩
    · rintro ⟨r, hr, rfl⟩
      refine ⟨_, List.mem_map_of_mem _ (List.mem_dedup.mpr
        (List.mem_map_of_mem _ hr)), rfl⟩

/-- Witness for C10 at the concrete sample record list. -/
theorem claim_C10_summary_consistent_witness :
    ((categoriesSummary sampleRecords).map (fun e => e.2.1)).sum =
      sampleRecords.length :=
  (claim_C10_summary_consistent "2024-01-01T00:00:00+00:00" sampleRecords
    (by decide)).2.1

end Scraper
